import Mathlib

/-!
Verification of the batch CV-matching pipeline of `Job-Match-recruiter`
(`src/frontend/src/pages/ManyCvs.js`), as a shallow embedding in Lean 4.

Modelling conventions: a possibly-absent JavaScript field is an `Option`;
numbers that take part in comparator arithmetic are `Int`; binary blobs
are opaque `String`s; `Array.prototype.sort` with the (consistent)
comparator of `ManyCvs.js` is modelled by a stable insertion sort, since
ES2019 requires `sort` to be stable.
-/

namespace JobMatch

/-- Per-document feedback object returned by the backend
(`result.feedback` in `ManyCvs.js`); `match_percentage` may be absent. -/
structure Feedback where
  match_percentage : Option Int
  similarities : List String
  missing : List String
  course_recommendations : List (String × String)
deriving DecidableEq, Repr

/-- One element of the backend `results` array: `{filename, feedback}`
for a per-document success, `{filename, error}` for a per-document
failure. -/
structure ResultEntry where
  filename : String
  feedback : Option Feedback
  error : Option String
deriving DecidableEq, Repr

/-- `r.feedback?.match_percentage ?? 0` (ManyCvs.js lines 357-358): the
sort key, with a missing feedback object or missing percentage
defaulting to `0`. -/
def matchKey (r : ResultEntry) : Int :=
  match r.feedback with
  | none => 0
  | some fb =>
    match fb.match_percentage with
    | none => 0
    | some m => m

/-- The sort comparator of the results table (ManyCvs.js lines 356-366):
passing entries first, then by defaulted match percentage descending.
The local constants `aMatch`/`bMatch`/`aPasses`/`bPasses` of the source
are inlined. -/
def sortCmp (cutoff : Int) (a b : ResultEntry) : Int :=
  if matchKey a ≥ cutoff ∧ ¬ matchKey b ≥ cutoff then -1
  else if ¬ matchKey a ≥ cutoff ∧ matchKey b ≥ cutoff then 1
  else matchKey b - matchKey a

/-- The pass test as computed inside the comparator (lines 359-360):
the `?? 0`-defaulted percentage compared against the cutoff. -/
def cmpPasses (cutoff : Int) (r : ResultEntry) : Bool :=
  decide (matchKey r ≥ cutoff)

/-- Stable insertion: `x` is placed before the first element it strictly
precedes under the comparator, hence after every element it ties with. -/
def sortInsert (cmp : α → α → Int) (x : α) : List α → List α
  | [] => [x]
  | y :: ys => if cmp x y < 0 then x :: y :: ys else y :: sortInsert cmp x ys

/-- `[...l].sort(cmp)` for a consistent comparator: the stable sort,
realised by inserting each element in turn into the sorted prefix. -/
def jsSort (cmp : α → α → Int) (l : List α) : List α :=
  l.foldl (fun acc x => sortInsert cmp x acc) []

/-- The sorted rows of the results table (the `tbody` pipeline,
ManyCvs.js lines 354-366). -/
def sortedResults (cutoff : Int) (results : List ResultEntry) : List ResultEntry :=
  jsSort (sortCmp cutoff) results

/-- The row pass classification (ManyCvs.js line 371):
`feedback?.match_percentage >= cutoff`, where a missing feedback object
or percentage makes the comparison `undefined >= cutoff`, i.e. false.
Note: unlike the comparator, there is no `?? 0` default here. -/
def rowPasses (cutoff : Int) (r : ResultEntry) : Bool :=
  match r.feedback with
  | none => false
  | some fb =>
    match fb.match_percentage with
    | none => false
    | some m => decide (m ≥ cutoff)

/-- The rendered classification: rows in comparator order, each paired
with its pass/fail row class. -/
def classifyRows (cutoff : Int) (results : List ResultEntry) :
    List (ResultEntry × Bool) :=
  (sortedResults cutoff results).map (fun r => (r, rowPasses cutoff r))

/-- A Success entry with the given name and match percentage and no
other feedback content. -/
def successEntry (name : String) (m : Int) : ResultEntry :=
  ⟨name, some ⟨some m, [], [], []⟩, none⟩

/-- A Failure entry with the given name. -/
def failureEntry (name : String) (msg : String) : ResultEntry :=
  ⟨name, none, some msg⟩

/-! ## SelectionSet: `handleOptionChange` (ManyCvs.js lines 50-71) -/

/-- The checkbox handler: given the current `selectedOptions`, the toggled
`value` and the new `checked` state, returns the next selection and
whether the capacity alert fired (in which case the state is unchanged,
since the handler returns before calling `setSelectedOptions`). -/
def handleOptionChange (selectedOptions : List String) (value : String)
    (checked : Bool) : List String × Bool :=
  if value = "all" then
    (if checked then ["all"] else [], false)
  else
    let updated := selectedOptions.filter (fun opt => opt ≠ "all")
    if checked then
      if updated.length ≥ 3 then (selectedOptions, true)
      else (updated ++ [value], false)
    else
      (updated.filter (fun opt => opt ≠ value), false)

/-! ## FileRegistry: `handleFileChange` / `removeFile` (lines 167-182) -/

/-- An uploaded candidate document: its name and an opaque content blob. -/
structure CVFile where
  name : String
  content : String
deriving DecidableEq, Repr

/-- One `Map.set` step of `new Map(list.map(f => [f.name, f]))`: an
existing key keeps its position but takes the new value, a new key is
appended. -/
def mapInsert : List CVFile → CVFile → List CVFile
  | [], f => [f]
  | g :: gs, f => if g.name = f.name then f :: gs else g :: mapInsert gs f

/-- `Array.from(new Map(l.map(f => [f.name, f])).values())` (line 170):
deduplication by name with JavaScript `Map` insertion-order semantics. -/
def mapDedup (l : List CVFile) : List CVFile :=
  l.foldl mapInsert []

/-- The upload handler (lines 167-173): merge the new documents after the
existing ones, deduplicate by name, and return the new registry together
with the name-only projection written to `localStorage` under `cvFiles`. -/
def handleFileChange (files newFiles : List CVFile) :
    List CVFile × List String :=
  let unique := mapDedup (files ++ newFiles)
  (unique, unique.map (fun f => f.name))

/-- The remove handler (lines 178-182): drop every file with the given
name and return the new registry together with the persisted name-only
projection. -/
def removeFile (files : List CVFile) (name : String) :
    List CVFile × List String :=
  let updated := files.filter (fun f => f.name ≠ name)
  (updated, updated.map (fun f => f.name))

/-- Specification helper (first-seen order): the deduplicated name list of
`ns`, skipping names already in `seen`. -/
def dedupFirstSeen (seen : List String) : List String → List String
  | [] => []
  | n :: ns =>
    if n ∈ seen then dedupFirstSeen seen ns
    else n :: dedupFirstSeen (n :: seen) ns

/-- Specification helper (last-write-wins): the last element of `l` whose
name is `n`. -/
def lastOcc : List CVFile → String → Option CVFile
  | [], _ => none
  | f :: fs, n =>
    match lastOcc fs n with
    | some g => some g
    | none => if f.name = n then some f else none

/-- Lookup by name, first match. -/
def findByName : List CVFile → String → Option CVFile
  | [], _ => none
  | f :: fs, n => if f.name = n then some f else findByName fs n

/-! ## PersistedSession: `localStorage` (lines 76-111, 154, 172, 181, 198) -/

/-- The three `localStorage` keys the page uses, each possibly absent.
Values are modelled at the type they are serialized from; `cvFiles` holds
only names because the page persists `{name}` projections. -/
structure LocalStorage where
  cvFiles : Option (List String)
  jobDescriptionFileName : Option String
  analysisResultMany : Option (List ResultEntry)
deriving DecidableEq, Repr

/-- The state the `useState` initializers reconstruct at mount. -/
structure SessionState where
  files : List String
  jdFileName : String
  analysisResult : Option (List ResultEntry)
deriving DecidableEq, Repr

/-- The three `useState` initializers (lines 76-92): each missing key
falls back to its default (`stored ? JSON.parse(stored) : []`,
`stored || ''`, `stored ? JSON.parse(stored) : null`). -/
def loadSession (st : LocalStorage) : SessionState :=
  { files := match st.cvFiles with
      | some l => l
      | none => []
  , jdFileName := match st.jobDescriptionFileName with
      | some s => if s = "" then "" else s
      | none => ""
  , analysisResult := match st.analysisResultMany with
      | some l => some l
      | none => none }

/-- `localStorage.setItem('cvFiles', ...)`. -/
def setCvFiles (st : LocalStorage) (names : List String) : LocalStorage :=
  { st with cvFiles := some names }

/-- `localStorage.setItem('jobDescriptionFileName', ...)` (line 198). -/
def setJdFileName (st : LocalStorage) (name : String) : LocalStorage :=
  { st with jobDescriptionFileName := some name }

/-- `localStorage.setItem('analysisResultMany', ...)` (line 154). -/
def setAnalysisResultMany (st : LocalStorage) (rs : List ResultEntry) :
    LocalStorage :=
  { st with analysisResultMany := some rs }

/-- The `beforeunload` handler (lines 100-111): fired when the user
leaves *or refreshes* the page, it removes all three keys. -/
def handleBeforeUnload (_st : LocalStorage) : LocalStorage :=
  { cvFiles := none, jobDescriptionFileName := none,
    analysisResultMany := none }

/-- Saving one full session: the three individual `setItem` writes the
page performs, composed. -/
def saveSession (st : LocalStorage) (files : List String) (jd : String)
    (rs : List ResultEntry) : LocalStorage :=
  setAnalysisResultMany (setJdFileName (setCvFiles st files) jd) rs

/-! ## BatchSubmitter: `handleAnalyze` (lines 117-162) -/

/-- A chunk response: `ok` is `response.ok`; `results` is the `results`
field of the parsed body when it is an array, `none` otherwise (the code
guards with `Array.isArray`). -/
structure Response where
  ok : Bool
  results : Option (List ResultEntry)
deriving DecidableEq, Repr

/-- The outcomes a response contributes: its `results` array, or nothing
when `results` is not an array. -/
def resultsOf (r : Response) : List ResultEntry :=
  match r.results with
  | some rs => rs
  | none => []

/-- Observable events of one `handleAnalyze` run, in order. -/
inductive Event where
  | setLoadingEvt (b : Bool)
  | requestEvt (idx : Nat) (jd : CVFile) (selection : List String)
      (docs : List CVFile)
  | responseEvt (idx : Nat) (r : Response)
  | alertEvt (msg : String)
deriving DecidableEq, Repr

/-- The component state `handleAnalyze` touches: the React
`analysisResult` state, its `localStorage` mirror, and the busy flag. -/
structure ComponentState where
  analysisResult : Option (List ResultEntry)
  storedAnalysisResultMany : Option (List ResultEntry)
  loading : Bool
deriving DecidableEq, Repr

/-- The batching of the `for (let i = 0; i < files.length; i += 5)` loop:
`files.slice(i, i + 5)` for `i = 0, 5, 10, ...`. -/
def chunkList : List α → List (List α)
  | [] => []
  | a :: b :: c :: d :: e :: rest => [a, b, c, d, e] :: chunkList rest
  | l => [l]

/-- The body of the batch loop (lines 129-150): one awaited request per
chunk, in chunk order; a non-ok response throws (result `none`), an ok
response appends its outcomes to the accumulator. The remote service is
the oracle `respond`, indexed by chunk number. -/
def runChunks (jd : CVFile) (sel : List String) (respond : Nat → Response) :
    List (List CVFile) → Nat → List ResultEntry →
      List Event × Option (List ResultEntry)
  | [], _, acc => ([], some acc)
  | batch :: rest, k, acc =>
    if (respond k).ok then
      (Event.requestEvt k jd sel batch :: Event.responseEvt k (respond k)
         :: (runChunks jd sel respond rest (k + 1)
              (acc ++ resultsOf (respond k))).1,
       (runChunks jd sel respond rest (k + 1)
          (acc ++ resultsOf (respond k))).2)
    else
      ([Event.requestEvt k jd sel batch, Event.responseEvt k (respond k)],
       none)

/-- `handleAnalyze` (lines 117-162): validation, then the chunk loop in a
`try`; on success the accumulated list replaces `analysisResult` and its
`localStorage` mirror; on a thrown batch failure one alert fires and the
result state is left untouched; `finally` clears the busy flag. -/
def handleAnalyze (jobDescriptionFile : Option CVFile) (files : List CVFile)
    (selectedOptions : List String) (respond : Nat → Response)
    (st : ComponentState) : List Event × ComponentState :=
  match jobDescriptionFile with
  | none =>
    ([Event.alertEvt "Please upload a job description file and at least one CV."],
     st)
  | some jd =>
    if files.length = 0 then
      ([Event.alertEvt "Please upload a job description file and at least one CV."],
       st)
    else
      match runChunks jd selectedOptions respond (chunkList files) 0 [] with
      | (tr, some total) =>
        (Event.setLoadingEvt true :: tr ++ [Event.setLoadingEvt false],
         { analysisResult := some total,
           storedAnalysisResultMany := some total, loading := false })
      | (tr, none) =>
        (Event.setLoadingEvt true :: tr
           ++ [Event.alertEvt "Something went wrong while analyzing the CVs.",
               Event.setLoadingEvt false],
         { st with loading := false })

/-- Specification helper: the expected request/response trace for the
given chunks, requests in strictly increasing index order, each response
arriving before the next request. -/
def expectedTrace (jd : CVFile) (sel : List String)
    (respond : Nat → Response) : Nat → List (List CVFile) → List Event
  | _, [] => []
  | k, b :: bs =>
    Event.requestEvt k jd sel b :: Event.responseEvt k (respond k)
      :: expectedTrace jd sel respond (k + 1) bs

/-- Specification helper: the outcomes of responses `k, k+1, ...` for `m`
chunks, concatenated in response order. -/
def expectedOutcomes (respond : Nat → Response) : Nat → Nat → List ResultEntry
  | _, 0 => []
  | k, m + 1 => resultsOf (respond k) ++ expectedOutcomes respond (k + 1) m

/-- Number of request events in a trace. -/
def requestCount (tr : List Event) : Nat :=
  (tr.filter (fun e => match e with
    | Event.requestEvt _ _ _ _ => true
    | _ => false)).length

/-- Number of alert events in a trace. -/
def alertCount (tr : List Event) : Nat :=
  (tr.filter (fun e => match e with
    | Event.alertEvt _ => true
    | _ => false)).length

/-- Number of busy-flag writes in a trace. -/
def loadingEventCount (tr : List Event) : Nat :=
  (tr.filter (fun e => match e with
    | Event.setLoadingEvt _ => true
    | _ => false)).length

/-! ## ArchiveExporter: `handleDownloadMatchingCVs` (lines 16-44) -/

/-- The three outcomes of the export handler: the "No analysis results to
filter." alert, the "No CVs meet the selected cutoff." alert, or a zip
archive of name/content entries. -/
inductive ExportOutcome where
  | noResults
  | noMatch
  | archive (entries : List (String × String))
deriving DecidableEq, Repr

/-- The cutoff filter of the export handler (lines 23-26): a file is
selected when some result entry has its name, that entry has a feedback
object, and its `match_percentage` (no default here) is ≥ cutoff. -/
def matchedFiles (analysisResult : List ResultEntry) (files : List CVFile)
    (cutoff : Int) : List CVFile :=
  files.filter fun file =>
    match analysisResult.find? (fun r => r.filename = file.name) with
    | none => false
    | some r =>
      match r.feedback with
      | none => false
      | some fb =>
        match fb.match_percentage with
        | none => false
        | some m => decide (m ≥ cutoff)

/-- `handleDownloadMatchingCVs` (lines 16-44). -/
def handleDownloadMatchingCVs (analysisResult : Option (List ResultEntry))
    (files : List CVFile) (cutoff : Int) : ExportOutcome :=
  match analysisResult with
  | none => ExportOutcome.noResults
  | some rs =>
    if rs.length = 0 then ExportOutcome.noResults
    else
      if (matchedFiles rs files cutoff).length = 0 then ExportOutcome.noMatch
      else ExportOutcome.archive
        ((matchedFiles rs files cutoff).map fun f => (f.name, f.content))

/-! ## Lemmas about the stable sort -/

theorem sortInsert_perm (cmp : α → α → Int) (x : α) (l : List α) :
    (sortInsert cmp x l).Perm (x :: l) := by
  induction l with
  | nil => exact List.Perm.refl _
  | cons y ys ih =>
    simp only [sortInsert]
    split
    · exact List.Perm.refl _
    · exact (ih.cons y).trans (List.Perm.swap x y ys)

theorem jsSort_perm_aux (cmp : α → α → Int) :
    ∀ (l acc : List α),
      (List.foldl (fun acc x => sortInsert cmp x acc) acc l).Perm (acc ++ l)
  | [], acc => by simp
  | x :: xs, acc => by
    simp only [List.foldl_cons]
    refine (jsSort_perm_aux cmp xs _).trans ?_
    refine (List.Perm.append_right xs (sortInsert_perm cmp x acc)).trans ?_
    exact List.perm_middle.symm

/-- `jsSort` returns exactly the elements of its input. -/
theorem jsSort_perm (cmp : α → α → Int) (l : List α) : (jsSort cmp l).Perm l := by
  simpa using jsSort_perm_aux cmp l []

theorem sortInsert_pairwise (cmp : α → α → Int) (key : α → Int)
    (hcmp : ∀ x y, cmp x y < 0 ↔ key y < key x) (x : α) :
    ∀ l : List α, l.Pairwise (fun a b => key b ≤ key a) →
      (sortInsert cmp x l).Pairwise (fun a b => key b ≤ key a)
  | [], _ => by simp [sortInsert]
  | y :: ys, hl => by
    rw [List.pairwise_cons] at hl
    obtain ⟨hy, hys⟩ := hl
    simp only [sortInsert]
    split_ifs with h
    · rw [hcmp] at h
      rw [List.pairwise_cons]
      refine ⟨?_, ?_⟩
      · intro b hb
        rcases List.mem_cons.mp hb with rfl | hb
        · exact le_of_lt h
        · exact le_trans (hy b hb) (le_of_lt h)
      · rw [List.pairwise_cons]
        exact ⟨hy, hys⟩
    · rw [hcmp] at h
      push_neg at h
      rw [List.pairwise_cons]
      refine ⟨?_, sortInsert_pairwise cmp key hcmp x ys hys⟩
      intro b hb
      rcases List.mem_cons.mp ((sortInsert_perm cmp x ys).mem_iff.mp hb) with rfl | hb
      · exact h
      · exact hy b hb

theorem jsSort_pairwise_aux (cmp : α → α → Int) (key : α → Int)
    (hcmp : ∀ x y, cmp x y < 0 ↔ key y < key x) :
    ∀ (l acc : List α), acc.Pairwise (fun a b => key b ≤ key a) →
      (List.foldl (fun acc x => sortInsert cmp x acc) acc l).Pairwise
        (fun a b => key b ≤ key a)
  | [], _, h => by simpa using h
  | x :: xs, acc, h => by
    simp only [List.foldl_cons]
    exact jsSort_pairwise_aux cmp key hcmp xs _ (sortInsert_pairwise cmp key hcmp x acc h)

/-- `jsSort`, run with a comparator that answers "strictly smaller" exactly
when the key is strictly larger, sorts by key descending. -/
theorem jsSort_pairwise (cmp : α → α → Int) (key : α → Int)
    (hcmp : ∀ x y, cmp x y < 0 ↔ key y < key x) (l : List α) :
    (jsSort cmp l).Pairwise (fun a b => key b ≤ key a) :=
  jsSort_pairwise_aux cmp key hcmp l [] (by simp)

/-- The results comparator answers "a strictly first" exactly when `a`'s
defaulted percentage is strictly larger: passing before failing is
subsumed because the pass test is monotone in the key. -/
theorem sortCmp_lt_iff (c : Int) (a b : ResultEntry) :
    sortCmp c a b < 0 ↔ matchKey b < matchKey a := by
  unfold sortCmp
  split_ifs with h1 h2 <;> omega

theorem sortedResults_perm (c : Int) (R : List ResultEntry) :
    (sortedResults c R).Perm R :=
  jsSort_perm _ R

theorem sortedResults_pairwise (c : Int) (R : List ResultEntry) :
    (sortedResults c R).Pairwise (fun a b => matchKey b ≤ matchKey a) :=
  jsSort_pairwise _ matchKey (fun x y => sortCmp_lt_iff c x y) R

/-! ## Lemmas about Map-based deduplication -/

/-- `dedupFirstSeen` only depends on the membership of the seen set. -/
theorem dedupFirstSeen_congr (s₁ s₂ : List String)
    (hs : ∀ x, x ∈ s₁ ↔ x ∈ s₂) :
    ∀ ns, dedupFirstSeen s₁ ns = dedupFirstSeen s₂ ns
  | [] => rfl
  | n :: ns => by
    simp only [dedupFirstSeen]
    by_cases h : n ∈ s₁
    · rw [if_pos h, if_pos ((hs n).mp h)]
      exact dedupFirstSeen_congr s₁ s₂ hs ns
    · rw [if_neg h, if_neg (fun hc => h ((hs n).mpr hc))]
      rw [dedupFirstSeen_congr (n :: s₁) (n :: s₂)
        (fun x => by simp [hs x]) ns]

/-- Inserting into the map keeps the name list unless the name is new,
in which case it is appended. -/
theorem mapInsert_names (acc : List CVFile) (f : CVFile) :
    (mapInsert acc f).map (fun g => g.name)
      = if f.name ∈ acc.map (fun g => g.name) then acc.map (fun g => g.name)
        else acc.map (fun g => g.name) ++ [f.name] := by
  induction acc with
  | nil => simp [mapInsert]
  | cons g gs ih =>
    by_cases h : g.name = f.name
    · simp [mapInsert, h]
    · simp only [mapInsert, if_neg h, List.map_cons, ih]
      by_cases hmem : f.name ∈ gs.map (fun g => g.name)
      · simp [List.mem_cons, hmem]
      · simp [List.mem_cons, hmem, Ne.symm h]

theorem mapDedup_names_aux :
    ∀ (l acc : List CVFile),
      (List.foldl mapInsert acc l).map (fun g => g.name)
        = acc.map (fun g => g.name)
          ++ dedupFirstSeen (acc.map (fun g => g.name))
              (l.map (fun g => g.name))
  | [], acc => by simp [dedupFirstSeen]
  | f :: fs, acc => by
    simp only [List.foldl_cons, List.map_cons, dedupFirstSeen]
    rw [mapDedup_names_aux fs (mapInsert acc f), mapInsert_names]
    by_cases hmem : f.name ∈ acc.map (fun g => g.name)
    · rw [if_pos hmem, if_pos hmem]
    · rw [if_neg hmem, if_neg hmem]
      rw [dedupFirstSeen_congr (acc.map (fun g => g.name) ++ [f.name])
        (f.name :: acc.map (fun g => g.name))
        (fun x => by simp [or_comm]) (fs.map (fun g => g.name))]
      simp

/-- The names of the deduplicated registry, in first-seen order. -/
theorem mapDedup_names (l : List CVFile) :
    (mapDedup l).map (fun g => g.name)
      = dedupFirstSeen [] (l.map (fun g => g.name)) := by
  simpa [mapDedup, dedupFirstSeen] using mapDedup_names_aux l []

/-- Lookup through one map insertion: the inserted file shadows any
previous entry with its name. -/
theorem findByName_mapInsert (acc : List CVFile) (f : CVFile) (n : String) :
    findByName (mapInsert acc f) n
      = if f.name = n then some f else findByName acc n := by
  induction acc with
  | nil => simp [mapInsert, findByName]
  | cons g gs ih =>
    by_cases hg : g.name = f.name
    · simp only [mapInsert, if_pos hg, findByName]
      by_cases hn : f.name = n
      · rw [if_pos hn, if_pos hn]
      · rw [if_neg hn, if_neg hn, if_neg (hg ▸ hn)]
    · simp only [mapInsert, if_neg hg, findByName, ih]
      by_cases hn : g.name = n <;> by_cases hf : f.name = n
      · exact absurd (hn.trans hf.symm) hg
      · simp [hn, hf]
      · simp [hn, hf]
      · simp [hn, hf]

theorem findByName_foldl_mapInsert :
    ∀ (l acc : List CVFile) (n : String),
      findByName (List.foldl mapInsert acc l) n
        = match lastOcc l n with
          | some f => some f
          | none => findByName acc n
  | [], acc, n => by simp [lastOcc]
  | f :: fs, acc, n => by
    simp only [List.foldl_cons, lastOcc]
    rw [findByName_foldl_mapInsert fs (mapInsert acc f) n,
      findByName_mapInsert]
    rcases lastOcc fs n with _ | g
    · by_cases hf : f.name = n <;> simp [hf]
    · simp

/-- Last-write-wins: looking a name up in the deduplicated registry finds
the last element of the input with that name. -/
theorem findByName_mapDedup (l : List CVFile) (n : String) :
    findByName (mapDedup l) n = lastOcc l n := by
  rw [mapDedup, findByName_foldl_mapInsert l [] n]
  rcases lastOcc l n with _ | g <;> rfl

/-- With pairwise-distinct names, removing by name is erasing the (only)
entry with that name. -/
theorem filter_ne_eq_eraseP (files : List CVFile) (n : String)
    (h : (files.map (fun f => f.name)).Nodup) :
    files.filter (fun f => f.name ≠ n)
      = files.eraseP (fun f => f.name = n) := by
  induction files with
  | nil => rfl
  | cons f fs ih =>
    simp only [List.map_cons, List.nodup_cons] at h
    obtain ⟨hf, hfs⟩ := h
    by_cases hn : f.name = n
    · rw [List.eraseP_cons_of_pos (by simpa using hn)]
      rw [List.filter_cons_of_neg (by simpa using hn)]
      rw [List.filter_eq_self]
      intro g hg
      simp only [decide_eq_true_eq]
      intro hgn
      exact hf (List.mem_map.mpr ⟨g, hg, hgn.trans hn.symm⟩)
    · rw [List.eraseP_cons_of_neg (by simpa using hn)]
      rw [List.filter_cons_of_pos (by simpa using hn)]
      rw [ih hfs]

/-! ## Lemmas about the chunked submission loop -/

/-- The chunks concatenate back to the input: they are consecutive and
preserve the original order. -/
theorem chunkList_flatten : ∀ l : List α, (chunkList l).flatten = l
  | [] => rfl
  | [_] => rfl
  | [_, _] => rfl
  | [_, _, _] => rfl
  | [_, _, _, _] => rfl
  | a :: b :: c :: d :: e :: rest => by
    simp only [chunkList, List.flatten_cons, chunkList_flatten rest]
    rfl

/-- There are `⌈n/5⌉ = (n+4)/5` chunks. -/
theorem chunkList_length : ∀ l : List α, (chunkList l).length = (l.length + 4) / 5
  | [] => by simp [chunkList]
  | [_] => by simp [chunkList]
  | [_, _] => by simp [chunkList]
  | [_, _, _] => by simp [chunkList]
  | [_, _, _, _] => by simp [chunkList]
  | a :: b :: c :: d :: e :: rest => by
    simp only [chunkList, List.length_cons, chunkList_length rest]
    omega

/-! Small counting lemmas, one per event constructor and count. -/

theorem requestCount_cons_req (i : Nat) (jd : CVFile) (sel : List String)
    (b : List CVFile) (tr : List Event) :
    requestCount (Event.requestEvt i jd sel b :: tr) = requestCount tr + 1 := by
  simp [requestCount]

theorem requestCount_cons_resp (i : Nat) (r : Response) (tr : List Event) :
    requestCount (Event.responseEvt i r :: tr) = requestCount tr := by
  simp [requestCount]

theorem requestCount_cons_load (b : Bool) (tr : List Event) :
    requestCount (Event.setLoadingEvt b :: tr) = requestCount tr := by
  simp [requestCount]

theorem requestCount_cons_alert (m : String) (tr : List Event) :
    requestCount (Event.alertEvt m :: tr) = requestCount tr := by
  simp [requestCount]

theorem requestCount_append (t1 t2 : List Event) :
    requestCount (t1 ++ t2) = requestCount t1 + requestCount t2 := by
  simp [requestCount, List.filter_append]

theorem alertCount_cons_req (i : Nat) (jd : CVFile) (sel : List String)
    (b : List CVFile) (tr : List Event) :
    alertCount (Event.requestEvt i jd sel b :: tr) = alertCount tr := by
  simp [alertCount]

theorem alertCount_cons_resp (i : Nat) (r : Response) (tr : List Event) :
    alertCount (Event.responseEvt i r :: tr) = alertCount tr := by
  simp [alertCount]

theorem alertCount_cons_load (b : Bool) (tr : List Event) :
    alertCount (Event.setLoadingEvt b :: tr) = alertCount tr := by
  simp [alertCount]

theorem alertCount_cons_alert (m : String) (tr : List Event) :
    alertCount (Event.alertEvt m :: tr) = alertCount tr + 1 := by
  simp [alertCount]

theorem alertCount_append (t1 t2 : List Event) :
    alertCount (t1 ++ t2) = alertCount t1 + alertCount t2 := by
  simp [alertCount, List.filter_append]

theorem loadCount_cons_req (i : Nat) (jd : CVFile) (sel : List String)
    (b : List CVFile) (tr : List Event) :
    loadingEventCount (Event.requestEvt i jd sel b :: tr)
      = loadingEventCount tr := by
  simp [loadingEventCount]

theorem loadCount_cons_resp (i : Nat) (r : Response) (tr : List Event) :
    loadingEventCount (Event.responseEvt i r :: tr) = loadingEventCount tr := by
  simp [loadingEventCount]

theorem loadCount_cons_load (b : Bool) (tr : List Event) :
    loadingEventCount (Event.setLoadingEvt b :: tr)
      = loadingEventCount tr + 1 := by
  simp [loadingEventCount]

theorem loadCount_cons_alert (m : String) (tr : List Event) :
    loadingEventCount (Event.alertEvt m :: tr) = loadingEventCount tr := by
  simp [loadingEventCount]

theorem loadCount_append (t1 t2 : List Event) :
    loadingEventCount (t1 ++ t2)
      = loadingEventCount t1 + loadingEventCount t2 := by
  simp [loadingEventCount, List.filter_append]

/-- Every chunk has between 1 and 5 documents. -/
theorem chunkList_sizes : ∀ l : List α, ∀ ch ∈ chunkList l, ch.length ≤ 5 ∧ ch ≠ []
  | [], ch, hch => by simp [chunkList] at hch
  | [a], ch, hch => by
    simp only [chunkList, List.mem_singleton] at hch
    subst hch
    exact ⟨by simp, by simp⟩
  | [a, b], ch, hch => by
    simp only [chunkList, List.mem_singleton] at hch
    subst hch
    exact ⟨by simp, by simp⟩
  | [a, b, c], ch, hch => by
    simp only [chunkList, List.mem_singleton] at hch
    subst hch
    exact ⟨by simp, by simp⟩
  | [a, b, c, d], ch, hch => by
    simp only [chunkList, List.mem_singleton] at hch
    subst hch
    exact ⟨by simp, by simp⟩
  | a :: b :: c :: d :: e :: rest, ch, hch => by
    simp only [chunkList, List.mem_cons] at hch
    rcases hch with rfl | h
    · exact ⟨by simp, by simp⟩
    · exact chunkList_sizes rest ch h

/-- Every chunk except possibly the last carries exactly 5 documents. -/
theorem chunkList_dropLast :
    ∀ l : List α, ∀ ch ∈ (chunkList l).dropLast, ch.length = 5
  | [], ch, hch => by simp [chunkList] at hch
  | [a], ch, hch => by simp [chunkList] at hch
  | [a, b], ch, hch => by simp [chunkList] at hch
  | [a, b, c], ch, hch => by simp [chunkList] at hch
  | [a, b, c, d], ch, hch => by simp [chunkList] at hch
  | a :: b :: c :: d :: e :: rest, ch, hch => by
    simp only [chunkList] at hch
    rcases hrest : chunkList rest with _ | ⟨c0, cs⟩
    · rw [hrest] at hch
      simp at hch
    · rw [hrest, List.dropLast_cons₂] at hch
      rcases List.mem_cons.mp hch with rfl | h
      · rfl
      · exact chunkList_dropLast rest ch (by rw [hrest]; exact h)

/-- The expected trace contains one request per chunk. -/
theorem requestCount_expectedTrace (jd : CVFile) (sel : List String)
    (respond : Nat → Response) :
    ∀ (k : Nat) (cs : List (List CVFile)),
      requestCount (expectedTrace jd sel respond k cs) = cs.length
  | _, [] => rfl
  | k, b :: bs => by
    rw [expectedTrace, requestCount_cons_req, requestCount_cons_resp,
      requestCount_expectedTrace jd sel respond (k + 1) bs, List.length_cons]

/-- The expected trace contains no alerts. -/
theorem alertCount_expectedTrace (jd : CVFile) (sel : List String)
    (respond : Nat → Response) :
    ∀ (k : Nat) (cs : List (List CVFile)),
      alertCount (expectedTrace jd sel respond k cs) = 0
  | _, [] => rfl
  | k, b :: bs => by
    rw [expectedTrace, alertCount_cons_req, alertCount_cons_resp,
      alertCount_expectedTrace jd sel respond (k + 1) bs]

/-- The chunk loop, when every response is ok, performs exactly the
expected request/response trace and accumulates every response's
outcomes in order. -/
theorem runChunks_allOk (jd : CVFile) (sel : List String)
    (respond : Nat → Response) (hok : ∀ j, (respond j).ok = true) :
    ∀ (cs : List (List CVFile)) (k : Nat) (acc : List ResultEntry),
      runChunks jd sel respond cs k acc
        = (expectedTrace jd sel respond k cs,
           some (acc ++ expectedOutcomes respond k cs.length))
  | [], k, acc => by simp [runChunks, expectedTrace, expectedOutcomes]
  | b :: bs, k, acc => by
    simp only [runChunks, expectedTrace, List.length_cons, expectedOutcomes]
    rw [if_pos (hok k)]
    rw [runChunks_allOk jd sel respond hok bs (k + 1) (acc ++ resultsOf (respond k))]
    simp [List.append_assoc]

/-- The chunk loop emits only request and response events, no alerts. -/
theorem runChunks_alertCount (jd : CVFile) (sel : List String)
    (respond : Nat → Response) :
    ∀ (cs : List (List CVFile)) (k : Nat) (acc : List ResultEntry),
      alertCount (runChunks jd sel respond cs k acc).1 = 0
  | [], _, _ => rfl
  | b :: bs, k, acc => by
    have ih := runChunks_alertCount jd sel respond bs (k + 1)
      (acc ++ resultsOf (respond k))
    simp only [runChunks]
    by_cases h : (respond k).ok = true
    · rw [if_pos h, alertCount_cons_req, alertCount_cons_resp]
      exact ih
    · rw [if_neg h]
      rfl

/-- The chunk loop never writes the busy flag. -/
theorem runChunks_loadCount (jd : CVFile) (sel : List String)
    (respond : Nat → Response) :
    ∀ (cs : List (List CVFile)) (k : Nat) (acc : List ResultEntry),
      loadingEventCount (runChunks jd sel respond cs k acc).1 = 0
  | [], _, _ => rfl
  | b :: bs, k, acc => by
    have ih := runChunks_loadCount jd sel respond bs (k + 1)
      (acc ++ resultsOf (respond k))
    simp only [runChunks]
    by_cases h : (respond k).ok = true
    · rw [if_pos h, loadCount_cons_req, loadCount_cons_resp]
      exact ih
    · rw [if_neg h]
      rfl

/-- If responses `k..k+j-1` are ok and response `k+j` is not, the chunk
loop throws (result `none`) after issuing exactly `j+1` requests: the
abort is immediate, no later chunk is requested. -/
theorem runChunks_firstFail (jd : CVFile) (sel : List String)
    (respond : Nat → Response) :
    ∀ (cs : List (List CVFile)) (k : Nat) (acc : List ResultEntry) (j : Nat),
      j < cs.length →
      (∀ i, i < j → (respond (k + i)).ok = true) →
      (respond (k + j)).ok = false →
      (runChunks jd sel respond cs k acc).2 = none
      ∧ requestCount (runChunks jd sel respond cs k acc).1 = j + 1
  | [], _, _, j, hj, _, _ => absurd hj (by simp)
  | b :: bs, k, acc, 0, _, _, hfail => by
    have h0 : ¬ (respond k).ok = true := by simpa using hfail
    simp only [runChunks]
    rw [if_neg h0]
    exact ⟨rfl, by simp [requestCount]⟩
  | b :: bs, k, acc, j + 1, hj, hprev, hfail => by
    have h0 : (respond k).ok = true := by simpa using hprev 0 (Nat.succ_pos j)
    have ih := runChunks_firstFail jd sel respond bs (k + 1)
      (acc ++ resultsOf (respond k)) j
      (by simpa using Nat.lt_of_succ_lt_succ hj)
      (fun i hi => by
        have h := hprev (i + 1) (Nat.succ_lt_succ hi)
        rwa [show k + (i + 1) = k + 1 + i by omega] at h)
      (by rwa [show k + 1 + j = k + (j + 1) by omega])
    simp only [runChunks]
    rw [if_pos h0]
    exact ⟨ih.1, by rw [requestCount_cons_req, requestCount_cons_resp, ih.2]⟩

/-- `handleAnalyze` after passing validation: the chunk loop result
decides between the commit path and the alert path. -/
theorem handleAnalyze_valid (jd : CVFile) (files : List CVFile)
    (sel : List String) (respond : Nat → Response) (st : ComponentState)
    (hfiles : files ≠ []) :
    handleAnalyze (some jd) files sel respond st
      = match runChunks jd sel respond (chunkList files) 0 [] with
        | (tr, some total) =>
          (Event.setLoadingEvt true :: tr ++ [Event.setLoadingEvt false],
           { analysisResult := some total,
             storedAnalysisResultMany := some total, loading := false })
        | (tr, none) =>
          (Event.setLoadingEvt true :: tr
             ++ [Event.alertEvt "Something went wrong while analyzing the CVs.",
                 Event.setLoadingEvt false],
           { st with loading := false }) := by
  simp only [handleAnalyze]
  rw [if_neg (by simpa using hfiles)]

/-! ## Claim C1 -/

/-- C1: for every result set `R` and cutoff `c ∈ [0,100]`, the rendered
order returns exactly the elements of `R`; entries passing the
comparator's pass test (`?? 0`-defaulted percentage ≥ cutoff, so a
Failure or missing percentage counts as 0) come before all entries
failing it; within each partition entries are sorted by defaulted
percentage descending; and on documents A.pdf (Success 82),
B.pdf (Failure), C.pdf (Success 65) with cutoff 70 the classified order
is [A.pdf (pass), C.pdf (fail), B.pdf (fail)]. -/
theorem claim1_classify_ordering (c : Int) (hc0 : 0 ≤ c) (hc1 : c ≤ 100)
    (R : List ResultEntry) :
    (sortedResults c R).Perm R
    ∧ (sortedResults c R).Pairwise
        (fun a b => cmpPasses c b = true → cmpPasses c a = true)
    ∧ (sortedResults c R).Pairwise
        (fun a b => cmpPasses c a = cmpPasses c b → matchKey b ≤ matchKey a)
    ∧ classifyRows 70 [successEntry "A.pdf" 82, failureEntry "B.pdf" "err",
        successEntry "C.pdf" 65]
      = [(successEntry "A.pdf" 82, true), (successEntry "C.pdf" 65, false),
         (failureEntry "B.pdf" "err", false)] := by
  refine ⟨sortedResults_perm c R, ?_, ?_, by decide⟩
  · refine (sortedResults_pairwise c R).imp ?_
    intro a b h hb
    simp only [cmpPasses, decide_eq_true_eq] at *
    omega
  · refine (sortedResults_pairwise c R).imp ?_
    intro a b h _
    exact h

/-- Witness for C1 at cutoff 70. -/
theorem claim1_classify_ordering_witness :
    (0 : Int) ≤ 70 ∧ (70 : Int) ≤ 100 ∧
      (sortedResults 70 [successEntry "A.pdf" 82, failureEntry "B.pdf" "err",
        successEntry "C.pdf" 65]).Perm
        [successEntry "A.pdf" 82, failureEntry "B.pdf" "err",
         successEntry "C.pdf" 65] :=
  ⟨by decide, by decide,
    (claim1_classify_ordering 70 (by decide) (by decide) _).1⟩

/-! ## Claim C4 -/

/-- C4 counterexample: at cutoff `c = 0`, the Failure entry B.pdf (row
class `passes = false`, since line 371 has no `?? 0` default) sorts
*before* the Success entry A.pdf with `match_percentage = 0` whose row
class is `passes = true` — the comparator treats the Failure's defaulted
percentage 0 as passing the `0 ≥ 0` test and the stable sort keeps the
tie in input order. So a Failure entry does not land after every passing
entry, refuting the claim as stated for cutoff 0. -/
theorem claim4_counterexample :
    classifyRows 0 [failureEntry "B.pdf" "err", successEntry "A.pdf" 0]
      = [(failureEntry "B.pdf" "err", false), (successEntry "A.pdf" 0, true)]
    ∧ (failureEntry "B.pdf" "err").feedback = none := by decide

/-- C4 (amended): for every cutoff `c ∈ [0,100]`, every Failure entry has
row class `passes = false` and a Success entry has `passes = true` iff
its percentage is ≥ c; and for every cutoff `c ∈ [1,100]` (not 0), every
Failure entry lands after every entry whose row class is passing. -/
theorem claim4_pass_classification (c : Int) (hc0 : 0 ≤ c) (hc1 : c ≤ 100)
    (R : List ResultEntry) :
    (∀ p ∈ classifyRows c R, p.1.feedback = none → p.2 = false)
    ∧ (∀ p ∈ classifyRows c R, ∀ fb m, p.1.feedback = some fb →
        fb.match_percentage = some m → (p.2 = true ↔ m ≥ c))
    ∧ (1 ≤ c → (classifyRows c R).Pairwise
        (fun p q => p.1.feedback = none → q.2 = false)) := by
  refine ⟨?_, ?_, ?_⟩
  · intro p hp hnone
    simp only [classifyRows, List.mem_map] at hp
    obtain ⟨r, _, rfl⟩ := hp
    simp only at hnone
    simp [rowPasses, hnone]
  · intro p hp fb m hfb hm
    simp only [classifyRows, List.mem_map] at hp
    obtain ⟨r, _, rfl⟩ := hp
    simp at hfb hm ⊢
    simp [rowPasses, hfb, hm]
  · intro hc
    rw [classifyRows, List.pairwise_map]
    refine (sortedResults_pairwise c R).imp ?_
    intro a b h ha
    simp only at ha
    have ha0 : matchKey a = 0 := by simp [matchKey, ha]
    rcases hfb : b.feedback with _ | fb
    · simp [rowPasses, hfb]
    · rcases hm : fb.match_percentage with _ | m
      · simp [rowPasses, hfb, hm]
      · have hkb : matchKey b = m := by simp [matchKey, hfb, hm]
        simp only [rowPasses, hfb, hm, ge_iff_le, decide_eq_false_iff_not, not_le]
        omega

/-- Witness for C4 (amended) at cutoff 70. -/
theorem claim4_pass_classification_witness :
    (0 : Int) ≤ 70 ∧ (70 : Int) ≤ 100 ∧
      (∀ p ∈ classifyRows 70 [failureEntry "B.pdf" "err",
          successEntry "A.pdf" 82],
        p.1.feedback = none → p.2 = false) :=
  ⟨by decide, by decide,
    (claim4_pass_classification 70 (by decide) (by decide) _).1⟩

/-! ## Claim C5 -/

/-- C5 counterexample: with three concrete dimensions selected, enabling
a dimension *already in the set* still trips the capacity check
(`updated.length >= 3` does not test containment), so the toggle fails
with a capacity error even though the claim's "exactly when ... does not
already contain the dimension being added" says it should not. -/
theorem claim5_counterexample :
    handleOptionChange ["percentage", "similarities", "missing"]
        "percentage" true
      = (["percentage", "similarities", "missing"], true)
    ∧ "percentage" ∈ ["percentage", "similarities", "missing"] := by decide

/-- C5 (amended): enabling the sentinel replaces the set with `{all}`;
disabling it clears the set; toggling a concrete dimension first strips
`all`; enabling a concrete dimension fails with a capacity error and no
state change exactly when the set already holds at least 3 concrete
dimensions — regardless of whether it already contains the one being
added; disabling a concrete dimension removes it unconditionally. -/
theorem claim5_toggle (s : List String) (v : String) :
    handleOptionChange s "all" true = (["all"], false)
    ∧ handleOptionChange s "all" false = ([], false)
    ∧ (v ≠ "all" →
        ((handleOptionChange s v true).2 = true
            ↔ 3 ≤ (s.filter (fun o => o ≠ "all")).length)
        ∧ ((handleOptionChange s v true).2 = true →
            (handleOptionChange s v true).1 = s)
        ∧ ((handleOptionChange s v true).2 = false →
            (handleOptionChange s v true).1
              = s.filter (fun o => o ≠ "all") ++ [v])
        ∧ handleOptionChange s v false
            = ((s.filter (fun o => o ≠ "all")).filter (fun o => o ≠ v),
               false)) := by
  refine ⟨by simp [handleOptionChange], by simp [handleOptionChange], ?_⟩
  intro hv
  have hT : handleOptionChange s v true
      = if 3 ≤ (s.filter (fun o => o ≠ "all")).length then (s, true)
        else (s.filter (fun o => o ≠ "all") ++ [v], false) := by
    simp [handleOptionChange, if_neg hv]
  have hF : handleOptionChange s v false
      = ((s.filter (fun o => o ≠ "all")).filter (fun o => o ≠ v), false) := by
    simp [handleOptionChange, if_neg hv]
  rw [hT, hF]
  by_cases h3 : 3 ≤ (s.filter (fun o => o ≠ "all")).length
  · rw [if_pos h3]
    exact ⟨iff_of_true rfl h3, fun _ => rfl, fun h => absurd h (by simp), rfl⟩
  · rw [if_neg h3]
    exact ⟨iff_of_false (by simp) h3, fun h => absurd h (by simp),
      fun _ => rfl, rfl⟩

/-- Witness for C5 (amended): enabling a second concrete dimension
succeeds and appends it after stripping nothing. -/
theorem claim5_toggle_witness :
    ("missing" : String) ≠ "all"
    ∧ ((handleOptionChange ["percentage"] "missing" true).2 = true
        ↔ 3 ≤ ((["percentage"] : List String).filter
            (fun o => o ≠ "all")).length) :=
  ⟨by decide, ((claim5_toggle ["percentage"] "missing").2.2 (by decide)).1⟩

/-! ## Claim C9 -/

/-- C9: the startup load is a total function that substitutes the
empty/absent default for each missing facet: `[]` for the file-name list,
`""` for the job-description name, `none` for the result snapshot; a
present facet is returned as stored. -/
theorem claim9_load_defaults (st : LocalStorage) :
    loadSession st
      = { files := st.cvFiles.getD []
        , jdFileName := st.jobDescriptionFileName.getD ""
        , analysisResult := st.analysisResultMany }
    ∧ loadSession ⟨none, none, none⟩ = ⟨[], "", none⟩ := by
  refine ⟨?_, rfl⟩
  rcases st with ⟨cf, jd, ar⟩
  rcases cf with _ | l <;> rcases jd with _ | s <;> rcases ar with _ | r <;>
    simp [loadSession] <;> exact fun h => h.symm

/-! ## Claim C7 -/

/-- C7 counterexample: a reload fires the `beforeunload` handler, which
removes all three `localStorage` keys, so loading after an actual
(simulated) reload does *not* reconstruct the saved state: it yields the
all-empty defaults instead of the saved file-name list, job-description
name and result snapshot. -/
theorem claim7_counterexample :
    loadSession (handleBeforeUnload
        (saveSession ⟨none, none, none⟩ ["A.pdf"] "jd.pdf" []))
      = ⟨[], "", none⟩
    ∧ loadSession (handleBeforeUnload
        (saveSession ⟨none, none, none⟩ ["A.pdf"] "jd.pdf" []))
      ≠ ⟨["A.pdf"], "jd.pdf", some []⟩ := by decide

/-- C7 (amended): save followed by load reconstructs the same file-name
list, job-description name and result snapshot as long as the
session-end teardown has not fired; an actual reload fires the
`beforeunload` teardown, which erases all three keys, so load after that
teardown — and likewise clear followed by load — yields the all-empty
defaults for all three facets. -/
theorem claim7_round_trip (st : LocalStorage) (files : List String)
    (jd : String) (rs : List ResultEntry) :
    loadSession (saveSession st files jd rs) = ⟨files, jd, some rs⟩
    ∧ loadSession (handleBeforeUnload st) = ⟨[], "", none⟩ := by
  refine ⟨?_, rfl⟩
  simp only [saveSession, setCvFiles, setJdFileName, setAnalysisResultMany,
    loadSession]
  split_ifs with h
  · simp [h]
  · rfl

/-! ## Claim C8 -/

/-- C8: the export handler reports the no-analysis condition (`null` or
empty result list) and the empty-selection condition as two distinct
outcomes, producing an archive in neither; and for a nonempty result set
in which no document scores exactly 100 (all stored percentages are
below 100, the valid range being 0-100), exporting with cutoff 100
yields the empty-selection outcome. -/
theorem claim8_export_errors (analysisResult : Option (List ResultEntry))
    (files : List CVFile) (cutoff : Int) (rs : List ResultEntry) :
    (analysisResult = none ∨ analysisResult = some [] →
      handleDownloadMatchingCVs analysisResult files cutoff
        = ExportOutcome.noResults)
    ∧ ExportOutcome.noResults ≠ ExportOutcome.noMatch
    ∧ (∀ entries, ExportOutcome.noResults ≠ ExportOutcome.archive entries
        ∧ ExportOutcome.noMatch ≠ ExportOutcome.archive entries)
    ∧ (rs ≠ [] →
        (∀ r ∈ rs, ∀ fb, r.feedback = some fb →
          ∀ m, fb.match_percentage = some m → m < 100) →
        handleDownloadMatchingCVs (some rs) files 100
          = ExportOutcome.noMatch) := by
  refine ⟨?_, by simp, fun entries => by simp, ?_⟩
  · rintro (rfl | rfl)
    · rfl
    · rfl
  · intro hne hlt
    have hm : matchedFiles rs files 100 = [] := by
      rw [matchedFiles, List.filter_eq_nil_iff]
      intro file _
      rcases hfind : rs.find? (fun r => r.filename = file.name) with _ | r
      · simp [hfind]
      · have hrmem : r ∈ rs := List.mem_of_find?_eq_some hfind
        rcases hfb : r.feedback with _ | fb
        · simp [hfind, hfb]
        · rcases hmp : fb.match_percentage with _ | m
          · simp [hfind, hfb, hmp]
          · have := hlt r hrmem fb hfb m hmp
            simp [hfind, hfb, hmp]
            omega
    simp only [handleDownloadMatchingCVs]
    rw [if_neg (by simpa using hne)]
    rw [if_pos (by simp [hm])]

/-- Witness for C8: one analysed document at 82%, cutoff 100. -/
theorem claim8_export_errors_witness :
    handleDownloadMatchingCVs (some [successEntry "A.pdf" 82])
        [⟨"A.pdf", "blobA"⟩] 100 = ExportOutcome.noMatch := by
  refine (claim8_export_errors (some [successEntry "A.pdf" 82])
      [⟨"A.pdf", "blobA"⟩] 100 [successEntry "A.pdf" 82]).2.2.2
    (by decide) ?_
  intro r hr fb hfb m hm
  simp only [List.mem_singleton] at hr
  subst hr
  simp only [successEntry] at hfb
  injection hfb with hfb
  subst hfb
  simp at hm
  omega

/-! ## Claim C6 -/

/-- C6: `add` merges the new documents after the existing ones and
deduplicates by name — the resulting name list is the first-seen
deduplication of the concatenation, and looking any name up finds the
last (most recently added) document with that name; `remove` is a no-op
when the name is absent and erases exactly the entry with the name when
names are distinct; both operations persist the name-only projection of
the new registry. -/
theorem claim6_file_registry (files newFiles : List CVFile) (n : String) :
    ((handleFileChange files newFiles).1).map (fun f => f.name)
        = dedupFirstSeen [] ((files ++ newFiles).map (fun f => f.name))
    ∧ (∀ m, findByName (handleFileChange files newFiles).1 m
        = lastOcc (files ++ newFiles) m)
    ∧ (handleFileChange files newFiles).2
        = ((handleFileChange files newFiles).1).map (fun f => f.name)
    ∧ ((∀ f ∈ files, f.name ≠ n) →
        removeFile files n = (files, files.map (fun f => f.name)))
    ∧ ((files.map (fun f => f.name)).Nodup →
        (removeFile files n).1 = files.eraseP (fun f => f.name = n))
    ∧ (removeFile files n).2
        = ((removeFile files n).1).map (fun f => f.name) := by
  refine ⟨mapDedup_names (files ++ newFiles),
    fun m => findByName_mapDedup (files ++ newFiles) m, rfl, ?_, ?_, rfl⟩
  · intro hnone
    have hid : files.filter (fun f => f.name ≠ n) = files := by
      rw [List.filter_eq_self]
      intro a ha
      simpa using hnone a ha
    have hrm : removeFile files n
        = (files.filter (fun f => f.name ≠ n),
           (files.filter (fun f => f.name ≠ n)).map (fun f => f.name)) := rfl
    rw [hrm, hid]
  · intro hnodup
    simpa [removeFile] using filter_ne_eq_eraseP files n hnodup

/-- Witness for C6 on a two-file registry. -/
theorem claim6_file_registry_witness :
    ((handleFileChange [CVFile.mk "a.pdf" "1"] [CVFile.mk "b.pdf" "2"]).1).map
        (fun f => f.name)
      = dedupFirstSeen []
          (([CVFile.mk "a.pdf" "1"] ++ [CVFile.mk "b.pdf" "2"]).map
            (fun f => f.name))
    ∧ removeFile [CVFile.mk "a.pdf" "1"] "zzz"
        = ([CVFile.mk "a.pdf" "1"], ["a.pdf"])
    ∧ (removeFile [CVFile.mk "a.pdf" "1"] "a.pdf").1
        = [CVFile.mk "a.pdf" "1"].eraseP (fun f => f.name = "a.pdf") :=
  ⟨(claim6_file_registry [CVFile.mk "a.pdf" "1"] [CVFile.mk "b.pdf" "2"]
      "zzz").1,
   (claim6_file_registry [CVFile.mk "a.pdf" "1"] [] "zzz").2.2.2.1
     (by decide),
   (claim6_file_registry [CVFile.mk "a.pdf" "1"] [] "a.pdf").2.2.2.2.1
     (by decide)⟩

/-! ## Claim C2 -/

/-- C2: when every chunk request succeeds, `handleAnalyze` over a
nonempty document list issues exactly `⌈N/5⌉ = (N+4)/5` requests; the
trace is precisely one request/response pair per chunk in strictly
increasing index order — so each response arrives strictly before the
next request — with request `k` carrying the job descriptor, the
serialized selection and chunk `k`; the chunks are consecutive slices of
at most 5 documents in original order (they flatten back to the input,
and only the last chunk may be smaller than 5); the final result list is
the concatenation of the responses' outcomes in response order. -/
theorem claim2_batch_submission (jd : CVFile) (files : List CVFile)
    (sel : List String) (respond : Nat → Response) (st : ComponentState)
    (hfiles : files ≠ []) (hok : ∀ k, (respond k).ok = true) :
    requestCount (handleAnalyze (some jd) files sel respond st).1
        = (files.length + 4) / 5
    ∧ (handleAnalyze (some jd) files sel respond st).1
        = Event.setLoadingEvt true
            :: expectedTrace jd sel respond 0 (chunkList files)
            ++ [Event.setLoadingEvt false]
    ∧ (chunkList files).flatten = files
    ∧ (∀ ch ∈ chunkList files, ch.length ≤ 5 ∧ ch ≠ [])
    ∧ (∀ ch ∈ (chunkList files).dropLast, ch.length = 5)
    ∧ (handleAnalyze (some jd) files sel respond st).2.analysisResult
        = some (expectedOutcomes respond 0 (chunkList files).length) := by
  have hA : handleAnalyze (some jd) files sel respond st
      = (Event.setLoadingEvt true
           :: expectedTrace jd sel respond 0 (chunkList files)
           ++ [Event.setLoadingEvt false],
         { analysisResult :=
             some (expectedOutcomes respond 0 (chunkList files).length),
           storedAnalysisResultMany :=
             some (expectedOutcomes respond 0 (chunkList files).length),
           loading := false }) := by
    rw [handleAnalyze_valid jd files sel respond st hfiles,
      runChunks_allOk jd sel respond hok (chunkList files) 0 []]
    rfl
  refine ⟨?_, by rw [hA], chunkList_flatten files, chunkList_sizes files,
    chunkList_dropLast files, by rw [hA]⟩
  rw [hA]
  dsimp only
  rw [requestCount_append, requestCount_cons_load,
    requestCount_expectedTrace jd sel respond 0 (chunkList files),
    chunkList_length]
  rfl

/-- Witness for C2: six documents, two chunks. -/
theorem claim2_batch_submission_witness :
    requestCount (handleAnalyze (some (CVFile.mk "jd.pdf" "J"))
        [CVFile.mk "a" "1", CVFile.mk "b" "2", CVFile.mk "c" "3",
         CVFile.mk "d" "4", CVFile.mk "e" "5", CVFile.mk "f" "6"]
        ["percentage"] (fun _ => Response.mk true (some []))
        (ComponentState.mk none none false)).1
      = ([CVFile.mk "a" "1", CVFile.mk "b" "2", CVFile.mk "c" "3",
          CVFile.mk "d" "4", CVFile.mk "e" "5",
          CVFile.mk "f" "6"].length + 4) / 5 :=
  (claim2_batch_submission _ _ _ _ _ (by decide) (fun _ => rfl)).1

/-! ## Claim C3 -/

/-- C3: if every chunk request succeeds, the accumulated outcome list
replaces the result store and its persisted mirror regardless of their
prior content, with no alert; if the first failing request is chunk `j`,
the run aborts immediately — exactly `j+1` requests were issued — the
result store and its mirror retain their pre-submit content unchanged,
and exactly one failure alert is reported. -/
theorem claim3_atomic_result_store (jd : CVFile) (files : List CVFile)
    (sel : List String) (respond : Nat → Response) (st : ComponentState)
    (hfiles : files ≠ []) :
    ((∀ k, (respond k).ok = true) →
      (handleAnalyze (some jd) files sel respond st).2.analysisResult
          = some (expectedOutcomes respond 0 (chunkList files).length)
      ∧ (handleAnalyze (some jd) files sel respond st).2.storedAnalysisResultMany
          = some (expectedOutcomes respond 0 (chunkList files).length)
      ∧ alertCount (handleAnalyze (some jd) files sel respond st).1 = 0)
    ∧ (∀ j, j < (chunkList files).length →
        (∀ i, i < j → (respond i).ok = true) →
        (respond j).ok = false →
        (handleAnalyze (some jd) files sel respond st).2.analysisResult
            = st.analysisResult
        ∧ (handleAnalyze (some jd) files sel respond st).2.storedAnalysisResultMany
            = st.storedAnalysisResultMany
        ∧ alertCount (handleAnalyze (some jd) files sel respond st).1 = 1
        ∧ requestCount (handleAnalyze (some jd) files sel respond st).1
            = j + 1) := by
  constructor
  · intro hok
    have hA : handleAnalyze (some jd) files sel respond st
        = (Event.setLoadingEvt true
             :: expectedTrace jd sel respond 0 (chunkList files)
             ++ [Event.setLoadingEvt false],
           { analysisResult :=
               some (expectedOutcomes respond 0 (chunkList files).length),
             storedAnalysisResultMany :=
               some (expectedOutcomes respond 0 (chunkList files).length),
             loading := false }) := by
      rw [handleAnalyze_valid jd files sel respond st hfiles,
        runChunks_allOk jd sel respond hok (chunkList files) 0 []]
      rfl
    refine ⟨by rw [hA], by rw [hA], ?_⟩
    rw [hA]
    dsimp only
    rw [alertCount_append, alertCount_cons_load,
      alertCount_expectedTrace jd sel respond 0 (chunkList files)]
    rfl
  · intro j hj hprev hfail
    have hff := runChunks_firstFail jd sel respond (chunkList files) 0 [] j hj
      (fun i hi => by simpa using hprev i hi) (by simpa using hfail)
    rcases hrc : runChunks jd sel respond (chunkList files) 0 [] with ⟨tr, out⟩
    rw [hrc] at hff
    obtain ⟨hout, hreq⟩ := hff
    have hA := handleAnalyze_valid jd files sel respond st hfiles
    rw [hrc] at hA
    cases out with
    | some total => simp at hout
    | none =>
      simp only at hreq
      dsimp only at hA
      have htr : alertCount tr = 0 := by
        have h := runChunks_alertCount jd sel respond (chunkList files) 0 []
        rw [hrc] at h
        exact h
      refine ⟨by rw [hA], by rw [hA], ?_, ?_⟩
      · rw [hA]
        dsimp only
        rw [alertCount_append, alertCount_cons_load, htr]
        rfl
      · rw [hA]
        dsimp only
        rw [requestCount_append, requestCount_cons_load, hreq]
        rfl

/-- Witness for C3: one document, the single request fails, the prior
result-store content is retained. -/
theorem claim3_atomic_result_store_witness :
    (handleAnalyze (some (CVFile.mk "jd.pdf" "J")) [CVFile.mk "a" "1"]
        ["all"] (fun _ => Response.mk false none)
        (ComponentState.mk (some [successEntry "old.pdf" 1])
          (some [successEntry "old.pdf" 1]) false)).2.analysisResult
      = some [successEntry "old.pdf" 1] :=
  ((claim3_atomic_result_store _ _ _ _ _ (by decide)).2 0 (by decide)
    (fun i hi => absurd hi (Nat.not_lt_zero i)) rfl).1

/-! ## Claim C10 -/

/-- C10: for every invocation that passes the pre-submission validation
(job description present, at least one document), the trace starts with
the busy flag set `true` — before any request — and ends with it set
`false`, with no busy-flag write in between, and the final component
state has `loading = false`; this holds on the full-success path and on
every failure path. -/
theorem claim10_loading_flag (jd : CVFile) (files : List CVFile)
    (sel : List String) (respond : Nat → Response) (st : ComponentState)
    (hfiles : files ≠ []) :
    (∃ mid, (handleAnalyze (some jd) files sel respond st).1
        = Event.setLoadingEvt true :: mid ++ [Event.setLoadingEvt false]
      ∧ loadingEventCount mid = 0)
    ∧ (handleAnalyze (some jd) files sel respond st).2.loading = false := by
  have hA := handleAnalyze_valid jd files sel respond st hfiles
  rcases hrc : runChunks jd sel respond (chunkList files) 0 [] with ⟨tr, out⟩
  have htr : loadingEventCount tr = 0 := by
    have h := runChunks_loadCount jd sel respond (chunkList files) 0 []
    rw [hrc] at h
    exact h
  rw [hrc] at hA
  cases out with
  | some total => exact ⟨⟨tr, by rw [hA], htr⟩, by rw [hA]⟩
  | none =>
    dsimp only at hA
    refine ⟨⟨tr ++ [Event.alertEvt "Something went wrong while analyzing the CVs."],
      ?_, ?_⟩, by rw [hA]⟩
    · rw [hA]
      simp [List.append_assoc]
    · rw [loadCount_append, htr]
      rfl

/-- Witness for C10 on the success path. -/
theorem claim10_loading_flag_witness :
    (handleAnalyze (some (CVFile.mk "jd.pdf" "J")) [CVFile.mk "a" "1"]
        [] (fun _ => Response.mk true (some []))
        (ComponentState.mk none none true)).2.loading = false :=
  (claim10_loading_flag _ _ _ _ _ (by decide)).2

end JobMatch
